import Mathlib

/-!
Verification of the `serverless-ruby-package` plugin (`src/index.js`).

The development shallowly embeds the plugin's observable behaviour:

* the configuration object assembled by the `config` getter (lines 8-41),
  including the `CROSS_COMPILE_EXTENSIONS` environment-variable override;
* the `beforePackage` hook (lines 77-167), modelled as a pure function from
  the effective configuration, the provider runtime, the initial
  `serverless.service.package` state, the outcome of the
  `bundle exec ruby` gem-identification subprocess, and an oracle giving the
  exit status of each docker command, to the final package state, the raised
  error (if any) and the trace of docker commands that were issued;
* `nativeLinuxBundle` (lines 193-242), modelled as the ordered list of
  docker commands it issues together with JavaScript `try`/`finally`
  semantics (a `finally` block always runs; an exception thrown inside
  `finally` replaces any pending exception);
* `tempContainer` (lines 169-191), modelled together with the crucial fact
  that `config` is a *getter* which rebuilds a fresh object on every access,
  so the assignment `this.config.tempContainer = container` (line 189)
  mutates a transient object and is lost.
-/

namespace ServerlessRubyPackage

/-- One resolved gem, as parsed from the JSON emitted by the
`identifyGemsScript` (src/index.js lines 83-96): `extensions` is the
native-extension flag, `name` the full gem name, `path` the install path
relative to the gem root, `gemspec` the gemspec path relative to the gem
root. -/
structure Gem where
  extensions : Bool
  name : String
  path : String
  gemspec : String
deriving DecidableEq, Repr

/-- The plugin configuration after merging defaults with the user's
`custom.rubyPackage` overrides (src/index.js lines 9-33).  JavaScript
`false` values of `withoutGroups` / `withGroups` / `dockerImage` are
modelled as `none`; a string value as `some s` (the empty string is falsy
in JavaScript, which the truthiness tests below account for). -/
structure PluginConfig where
  alwaysCrossCompileExtensions : Bool
  debug : Bool
  gemfilePath : String
  containerName : String
  containerPath : String
  withoutGroups : Option String
  withGroups : Option String
  standalone : Bool
  dockerImage : Option String
  excludeGemTests : Bool
deriving DecidableEq, Repr

/-- The default configuration object (src/index.js lines 10-28), before
user overrides.  `debug` mirrors `!!process.env.SRP_DEBUG` and the service
path feeds `gemfilePath`. -/
def defaultConfig (debug : Bool) (servicePath : String) : PluginConfig where
  alwaysCrossCompileExtensions := true
  debug := debug
  gemfilePath := servicePath ++ "/Gemfile"
  containerName := "serverless-ruby-package.packaged-gems"
  containerPath := "/var/task"
  withoutGroups := some "test development deploy"
  withGroups := none
  standalone := false
  dockerImage := none
  excludeGemTests := true

/-- The anchored case-insensitive test `/^(?:y|yes|true|1|on)$/i.test(v)`
(src/index.js line 36).  `Char.toLower` lower-cases exactly the ASCII
letters, matching the regex's case canonicalisation on these ASCII-only
alternatives (a non-ASCII character never matches an ASCII pattern
character under `/i`). -/
def crossCompileAffirmative (v : String) : Bool :=
  let t : String := ⟨v.data.map Char.toLower⟩
  t == "y" || t == "yes" || t == "true" || t == "1" || t == "on"

/-- Folding the `CROSS_COMPILE_EXTENSIONS` environment variable into the
merged configuration (src/index.js lines 34-38): when the variable is
defined (`some v`, including the empty string, since
`typeof '' !== 'undefined'`), `alwaysCrossCompileExtensions` is replaced by
the regex test's result; when undefined, the merged value stands. -/
def applyEnvOverride (cfg : PluginConfig) (env : Option String) : PluginConfig :=
  match env with
  | none => cfg
  | some v => { cfg with alwaysCrossCompileExtensions := crossCompileAffirmative v }

/-- `rubyVersion()` (src/index.js lines 57-65). -/
def rubyVersion (runtime : String) : String :=
  if runtime = "ruby2.5" then "2.5.0" else "2.7.0"

/-- `extensionApiVersion()` (src/index.js lines 67-75). -/
def extensionApiVersion (runtime : String) : String :=
  if runtime = "ruby2.5" then "2.5.0-static" else "2.7.0"

/-- `gemRoot` (src/index.js line 80): `vendor/bundle/ruby/${rubyVersion}`. -/
def gemRoot (runtime : String) : String :=
  "vendor/bundle/ruby/" ++ rubyVersion runtime

/-- `extensionDir` (src/index.js line 81):
`${gemRoot}/extensions/x86_64-linux/${extensionApiVersion}`. -/
def extensionDir (runtime : String) : String :=
  gemRoot runtime ++ "/extensions/x86_64-linux/" ++ extensionApiVersion runtime

/-- The docker commands `nativeLinuxBundle` can issue, in the order they
appear in src/index.js lines 204-240.  Each constructor stands for one
`execSync` call site; `configWith`/`configWithout` carry the interpolated
group string. -/
inductive Cmd where
  | create
  | cpVendor
  | cpGemfile
  | cpGemfileLock
  | configPath
  | configDeployment
  | configFrozen
  | configClean
  | configWith (groups : String)
  | configWithout (groups : String)
  | configStandalone
  | bundleInstall
  | cpVendorBack
  | cpBundleBack
  | rmContainer
deriving DecidableEq, Repr

/-- JavaScript truthiness of an optional string config field
(`if (this.config.withGroups)`, src/index.js lines 220, 223): `false`
(`none`) and the empty string are falsy. -/
def optGroupStep (o : Option String) (f : String → Cmd) : List Cmd :=
  match o with
  | none => []
  | some s => if s.isEmpty then [] else [f s]

/-- The ordered docker commands of the `try` block of `nativeLinuxBundle`
(src/index.js lines 204-237).  The host-side shell conditional wrapping the
vendor copy (lines 207-210) is part of a single `execSync` call and is
modelled as the single command `cpVendor`. -/
def nativeSteps (cfg : PluginConfig) : List Cmd :=
  [Cmd.create, Cmd.cpVendor, Cmd.cpGemfile, Cmd.cpGemfileLock,
   Cmd.configPath, Cmd.configDeployment, Cmd.configFrozen, Cmd.configClean]
  ++ optGroupStep cfg.withGroups Cmd.configWith
  ++ optGroupStep cfg.withoutGroups Cmd.configWithout
  ++ (if cfg.standalone then [Cmd.configStandalone] else [])
  ++ [Cmd.bundleInstall, Cmd.cpVendorBack]
  ++ (if cfg.standalone then [] else [Cmd.cpBundleBack])

/-- Run a sequence of `execSync` calls: each command is issued in order
until one fails (throws); the result is the trace of issued commands
(including the failing one) and the first failing command, if any. -/
def runSteps (ok : Cmd → Bool) : List Cmd → List Cmd × Option Cmd
  | [] => ([], none)
  | c :: rest =>
    if ok c then (c :: (runSteps ok rest).1, (runSteps ok rest).2)
    else ([c], some c)

/-- Outcome of one `nativeLinuxBundle` invocation: the trace of issued
docker commands, the error raised inside the `try` block (if any), and the
error that actually propagates to the caller. -/
structure NativeResult where
  trace : List Cmd
  bodyErr : Option Cmd
  err : Option Cmd
deriving DecidableEq, Repr

/-- `nativeLinuxBundle` (src/index.js lines 193-242) under an oracle `ok`
giving each docker command's success.  The `finally` block (lines 239-241)
always issues `docker rm`; per JavaScript semantics, if that `execSync`
throws, its exception propagates and *replaces* any pending exception from
the `try` block. -/
def nativeLinuxBundle (cfg : PluginConfig) (ok : Cmd → Bool) : NativeResult :=
  { trace := (runSteps ok (nativeSteps cfg)).1 ++ [Cmd.rmContainer]
    bodyErr := (runSteps ok (nativeSteps cfg)).2
    err :=
      if ok Cmd.rmContainer then (runSteps ok (nativeSteps cfg)).2
      else some Cmd.rmContainer }

/-- The `serverless.service.package` object as the plugin sees it:
`excludeDevDependencies`, the `exclude` pattern list, and the `include`
pattern list the plugin pushes onto. -/
structure PackageSurface where
  excludeDevDependencies : Bool
  exclude : List String
  includes : List String
deriving DecidableEq, Repr

/-- `this.serverless.service.package.include.push(r)`. -/
def pushInclude (s : PackageSurface) (r : String) : PackageSurface :=
  { s with includes := s.includes ++ [r] }

/-- Tagged forms of the rule strings `beforePackage` pushes, one
constructor per push site in src/index.js (lines 104, 130, 136, 139, 146,
148, 149, 157).  `renderRule` below gives each tag's exact string. -/
inductive ManifestRule where
  | bundlerStandalone
  | bundleConfig
  | gemDir (g : Gem)
  | gemExt (g : Gem)
  | gemGit (g : Gem)
  | gemTest (g : Gem)
  | gemSpecDir (g : Gem)
  | gemspecFile (g : Gem)
deriving DecidableEq, Repr

/-- The exact string pushed for each rule tag (src/index.js lines 104, 130,
136, 139, 146, 148, 149, 157). -/
def renderRule (runtime : String) : ManifestRule → String
  | .bundlerStandalone => "vendor/bundle/bundler/**"
  | .bundleConfig => ".bundle/config"
  | .gemDir g => gemRoot runtime ++ g.path ++ "/**"
  | .gemExt g => extensionDir runtime ++ "/" ++ g.name ++ "/**"
  | .gemGit g => "!" ++ gemRoot runtime ++ g.path ++ "/.git/**"
  | .gemTest g => "!" ++ gemRoot runtime ++ g.path ++ "/test/**"
  | .gemSpecDir g => "!" ++ gemRoot runtime ++ g.path ++ "/spec/**"
  | .gemspecFile g => gemRoot runtime ++ g.gemspec

/-- The rule tags pushed for one gem by the `gems.forEach` body
(src/index.js lines 135-159), in push order: the gem directory include,
the extension-directory include when the gem has native extensions, the
negated `.git` rule, the negated `test`/`spec` rules when
`excludeGemTests`, and the gemspec include when not standalone. -/
def gemRuleTags (cfg : PluginConfig) (g : Gem) : List ManifestRule :=
  ManifestRule.gemDir g ::
    ((if g.extensions then [ManifestRule.gemExt g] else [])
      ++ ManifestRule.gemGit g ::
        ((if cfg.excludeGemTests then
            [ManifestRule.gemTest g, ManifestRule.gemSpecDir g] else [])
          ++ (if cfg.standalone then [] else [ManifestRule.gemspecFile g])))

/-- `concatMap f [a₁, …]` = `f a₁ ++ …`, mirroring sequential
`forEach`-driven pushes. -/
def concatMap (f : α → List β) : List α → List β
  | [] => []
  | a :: as => f a ++ concatMap f as

/-- The string rules pushed for one gem (src/index.js lines 135-159). -/
def gemRules (cfg : PluginConfig) (runtime : String) (g : Gem) : List String :=
  (gemRuleTags cfg g).map (renderRule runtime)

/-- All rule tags `beforePackage` pushes onto the include list, in push
order: the standalone bootstrap rule (line 104), the `.bundle/config` rule
(line 130), then the per-gem rules (lines 135-159). -/
def manifestRuleTags (cfg : PluginConfig) (gems : List Gem) : List ManifestRule :=
  (if cfg.standalone then [ManifestRule.bundlerStandalone] else [])
  ++ (if cfg.standalone then [] else [ManifestRule.bundleConfig])
  ++ concatMap (gemRuleTags cfg) gems

/-- All include-list rule strings `beforePackage` pushes, in push order. -/
def manifestIncludes (cfg : PluginConfig) (runtime : String)
    (gems : List Gem) : List String :=
  (manifestRuleTags cfg gems).map (renderRule runtime)

/-- Errors a packaging run can raise: the gem-identification subprocess
failing (src/index.js line 108; the spec's `DependencyResolutionError`),
or a docker command failing inside `nativeLinuxBundle` (the spec's
sandbox errors, identified by the failing command). -/
inductive RunError where
  | dependencyResolution
  | native (c : Cmd)
deriving DecidableEq, Repr

/-- Outcome of one `beforePackage` run: the final package surface, whether
`nativeLinuxBundle` was invoked, its result when invoked, and the error
that propagates (if any). -/
structure RunResult where
  surface : PackageSurface
  invokedNative : Bool
  native : Option NativeResult
  err : Option RunError
deriving DecidableEq, Repr

/-- The tail of `beforePackage` after a successful gem identification and
(when invoked) a successful `nativeLinuxBundle` (src/index.js lines
121-166): push `.bundle/config` when not standalone, then the per-gem
rules. -/
def finishPackaging (cfg : PluginConfig) (runtime : String)
    (s : PackageSurface) (gems : List Gem) (invoked : Bool)
    (nr : Option NativeResult) : RunResult :=
  let s3 := if cfg.standalone then s else pushInclude s ".bundle/config"
  let s4 := { s3 with includes := s3.includes ++ concatMap (gemRules cfg runtime) gems }
  { surface := s4, invokedNative := invoked, native := nr, err := none }

/-- `beforePackage` (src/index.js lines 77-167).  `gems?` is the outcome of
the `bundle exec ruby` gem-identification call (line 108): `none` when the
subprocess exits non-zero (its exception propagates), `some gems` with the
parsed inventory otherwise.  `ok` is the docker-command oracle.  The
surface mutations before the subprocess call — `excludeDevDependencies =
false` (line 98), `exclude = ["**"]` (line 101), and the standalone
bootstrap push (line 104) — are committed unconditionally.  When
`alwaysCrossCompileExtensions` is true, `nativeLinuxBundle` runs (lines
115-119) before the remaining include pushes; any error it raises
propagates, leaving the later pushes unexecuted. -/
def beforePackage (cfg : PluginConfig) (runtime : String)
    (s0 : PackageSurface) (gems? : Option (List Gem)) (ok : Cmd → Bool) :
    RunResult :=
  let s1 : PackageSurface :=
    { s0 with excludeDevDependencies := false, exclude := ["**"] }
  let s2 := if cfg.standalone then pushInclude s1 "vendor/bundle/bundler/**" else s1
  match gems? with
  | none =>
    { surface := s2, invokedNative := false, native := none
      err := some RunError.dependencyResolution }
  | some gems =>
    if cfg.alwaysCrossCompileExtensions then
      let nr := nativeLinuxBundle cfg ok
      match nr.err with
      | some c =>
        { surface := s2, invokedNative := true, native := some nr
          err := some (RunError.native c) }
      | none => finishPackaging cfg runtime s2 gems true (some nr)
    else finishPackaging cfg runtime s2 gems false none

/-- A glob rule as the host packaging engine sees it: a pattern plus a
negation flag.  Entries of the `include` list beginning with `!` are
negated (exclusion) rules ordered among the includes (src/index.js lines
142-145). -/
structure GlobRule where
  pattern : String
  isNegated : Bool
deriving DecidableEq, Repr

/-- Parse one entry of the `include` list: a leading `!` marks a negated
rule evaluated in include order. -/
def parseIncludeRule (s : String) : GlobRule :=
  match s.data with
  | [] => ⟨s, false⟩
  | c :: rest => if c = '!' then ⟨⟨rest⟩, true⟩ else ⟨s, false⟩

/-- The full ordered rule sequence handed to the host packaging engine:
the `exclude` patterns (evaluated first, as exclusions) followed by the
`include` entries in push order. -/
def ruleSequence (s : PackageSurface) : List GlobRule :=
  s.exclude.map (fun p => ⟨p, true⟩) ++ s.includes.map parseIncludeRule

/-- The temporary container descriptor built by `tempContainer`
(src/index.js lines 172-187). -/
structure ContainerCfg where
  name : String
  path : String
  image : String
deriving DecidableEq, Repr

/-- The default docker image per runtime (src/index.js lines 178-187). -/
def defaultImage (runtime : String) : String :=
  if runtime = "ruby2.5" then "lambci/lambda:build-ruby2.5"
  else "lambci/lambda:build-ruby2.7"

/-- Construction of the container descriptor (src/index.js lines 172-187):
name and path from the config; image from `config.dockerImage` unless that
is falsy (`false` default, or empty string), in which case the
runtime-derived default image. -/
def buildTempContainer (cfg : PluginConfig) (runtime : String) : ContainerCfg :=
  { name := cfg.containerName
    path := cfg.containerPath
    image :=
      match cfg.dockerImage with
      | none => defaultImage runtime
      | some s => if s.isEmpty then defaultImage runtime else s }

/-- The persistent object `this.serverless.service.custom.rubyPackage`.
Only its `tempContainer` property matters here: `Object.assign` copies it
onto every freshly built config object, so it is the only place a
`tempContainer` value could survive between two `this.config` accesses. -/
structure CustomOverrides where
  tempContainer : Option ContainerCfg
deriving DecidableEq, Repr

/-- Result of one `tempContainer()` call: the returned descriptor, whether
the descriptor was (re)constructed during this call, and the persistent
custom object afterwards. -/
structure TempContainerResult where
  container : ContainerCfg
  constructed : Bool
  custom : CustomOverrides
deriving DecidableEq, Repr

/-- `tempContainer()` (src/index.js lines 169-191).  `this.config` is a
*getter* (line 8) that rebuilds the configuration object on every access
via `Object.assign({defaults…}, custom.rubyPackage)`, so the guard at line
170 sees a `tempContainer` property only if the persistent custom object
carries one, and the caching assignment `this.config.tempContainer =
container` at line 189 mutates the freshly built, immediately discarded
config object: the persistent custom object is unchanged. -/
def tempContainerCall (custom : CustomOverrides) (cfg : PluginConfig)
    (runtime : String) : TempContainerResult :=
  match custom.tempContainer with
  | some c => { container := c, constructed := false, custom := custom }
  | none =>
    let c := buildTempContainer cfg runtime
    { container := c, constructed := true, custom := custom }

/-! ### Sample data for concrete evaluations -/

/-- The gem of the spec's Scenario A. -/
def sampleGem : Gem where
  extensions := true
  name := "nokogiri-1.11.0"
  path := "/gems/nokogiri-1.11.0"
  gemspec := "/specifications/nokogiri-1.11.0.gemspec"

/-- The default configuration for a service rooted at `/app`, no user
overrides, no environment override. -/
def cfgEx : PluginConfig := defaultConfig false "/app"

/-- Oracle: every external command succeeds. -/
def okAll : Cmd → Bool := fun _ => true

/-- Oracle: `bundle install` inside the container fails; everything else
(including `docker rm`) succeeds. -/
def okInstallFail : Cmd → Bool := fun c => !(c == Cmd.bundleInstall)

/-- Oracle: `bundle install` fails and the final `docker rm` also fails. -/
def okInstallRmFail : Cmd → Bool :=
  fun c => !(c == Cmd.bundleInstall || c == Cmd.rmContainer)

/-! ### Helper lemmas -/

theorem runSteps_all_ok_of_none (ok : Cmd → Bool) :
    ∀ l : List Cmd, (runSteps ok l).2 = none → ∀ c ∈ l, ok c = true := by
  intro l
  induction l with
  | nil => intro _ c hc; exact absurd hc (List.not_mem_nil c)
  | cons a as ih =>
    intro h c hc
    by_cases ha : ok a = true
    · simp [runSteps, ha] at h
      rcases List.mem_cons.mp hc with rfl | hc
      · exact ha
      · exact ih h c hc
    · simp [runSteps, ha] at h

theorem bundleInstall_mem_nativeSteps (cfg : PluginConfig) :
    Cmd.bundleInstall ∈ nativeSteps cfg := by
  simp [nativeSteps]

/-! ### String lemmas -/

theorem string_mk_data (a : String) : String.mk a.data = a := by
  cases a
  rfl

theorem data_head_append (s t : String) (c : Char)
    (h : s.data.head? = some c) : (s ++ t).data.head? = some c := by
  rw [String.data_append]
  cases hs : s.data with
  | nil => rw [hs] at h; exact absurd h (by simp)
  | cons x xs => rw [hs] at h; simp at h; simp [h]

theorem gemRoot_head (rt : String) : (gemRoot rt).data.head? = some 'v' :=
  data_head_append _ _ _ rfl

theorem bang_data (a : String) : ("!" ++ a).data = '!' :: a.data := by
  rw [String.data_append]
  rfl

theorem ne_of_data_head_ne (a b : String) (ca cb : Char)
    (ha : a.data.head? = some ca) (hb : b.data.head? = some cb)
    (h : ca ≠ cb) : a ≠ b := by
  intro e
  subst e
  rw [ha] at hb
  exact h (Option.some.inj hb)

theorem gemRoot_append_ne_bundler (rt s : String) :
    gemRoot rt ++ s ≠ "vendor/bundle/bundler/**" := by
  intro e
  have hl := congrArg String.data e
  simp only [gemRoot, String.data_append, List.append_assoc] at hl
  have h19 := congrArg (List.take 19) hl
  rw [List.take_append_of_le_length (by decide)] at h19
  exact absurd h19 (by decide)

/-! ### `parseIncludeRule` lemmas -/

theorem parseIncludeRule_of_head (s : String) (c : Char)
    (h : s.data.head? = some c) (hc : c ≠ '!') :
    parseIncludeRule s = ⟨s, false⟩ := by
  cases hs : s.data with
  | nil => rw [hs] at h; exact absurd h (by simp)
  | cons x xs =>
    rw [hs] at h
    simp at h
    unfold parseIncludeRule
    rw [hs]
    simp [h ▸ hc]

theorem parseIncludeRule_bang (a : String) :
    parseIncludeRule ("!" ++ a) = ⟨a, true⟩ := by
  unfold parseIncludeRule
  rw [bang_data]
  simp [string_mk_data]

/-! ### Per-rule string facts -/

/-- Head characters of each pushed rule string: `!` for the negated rules,
`v` or `.` for the positive ones. -/
theorem renderRule_head (rt : String) (t : ManifestRule) :
    (renderRule rt t).data.head? = some 'v'
    ∨ (renderRule rt t).data.head? = some '.'
    ∨ (renderRule rt t).data.head? = some '!' := by
  cases t with
  | bundlerStandalone => exact Or.inl rfl
  | bundleConfig => exact Or.inr (Or.inl rfl)
  | gemDir g =>
    exact Or.inl (data_head_append _ _ _ (data_head_append _ _ _ (gemRoot_head rt)))
  | gemExt g =>
    exact Or.inl (data_head_append _ _ _ (data_head_append _ _ _
      (data_head_append _ _ _ (data_head_append _ _ _ (gemRoot_head rt)))))
  | gemGit g =>
    exact Or.inr (Or.inr (data_head_append _ _ _ (data_head_append _ _ _
      (data_head_append _ _ _ rfl))))
  | gemTest g =>
    exact Or.inr (Or.inr (data_head_append _ _ _ (data_head_append _ _ _
      (data_head_append _ _ _ rfl))))
  | gemSpecDir g =>
    exact Or.inr (Or.inr (data_head_append _ _ _ (data_head_append _ _ _
      (data_head_append _ _ _ rfl))))
  | gemspecFile g => exact Or.inl (data_head_append _ _ _ (gemRoot_head rt))

/-- The parsed pattern of any pushed rule is never the universal glob:
positive rules keep their `v`/`.` head, and a negated rule's pattern is the
string after the `!`, which always begins with the gem root's `v`. -/
theorem renderRule_pattern_ne_starstar (rt : String) (t : ManifestRule) :
    (parseIncludeRule (renderRule rt t)).pattern ≠ "**" := by
  have hstar : ("**" : String).data.head? = some '*' := rfl
  cases t with
  | bundlerStandalone =>
    show (parseIncludeRule "vendor/bundle/bundler/**").pattern ≠ "**"
    decide
  | bundleConfig =>
    show (parseIncludeRule ".bundle/config").pattern ≠ "**"
    decide
  | gemDir g =>
    show (parseIncludeRule (gemRoot rt ++ g.path ++ "/**")).pattern ≠ "**"
    have hh : (gemRoot rt ++ g.path ++ "/**").data.head? = some 'v' :=
      data_head_append _ _ _ (data_head_append _ _ _ (gemRoot_head rt))
    rw [parseIncludeRule_of_head _ _ hh (by decide)]
    exact ne_of_data_head_ne _ _ 'v' '*' hh hstar (by decide)
  | gemExt g =>
    show (parseIncludeRule (extensionDir rt ++ "/" ++ g.name ++ "/**")).pattern ≠ "**"
    have hh : (extensionDir rt ++ "/" ++ g.name ++ "/**").data.head? = some 'v' :=
      data_head_append _ _ _ (data_head_append _ _ _
        (data_head_append _ _ _ (data_head_append _ _ _ (gemRoot_head rt))))
    rw [parseIncludeRule_of_head _ _ hh (by decide)]
    exact ne_of_data_head_ne _ _ 'v' '*' hh hstar (by decide)
  | gemGit g =>
    show (parseIncludeRule ("!" ++ gemRoot rt ++ g.path ++ "/.git/**")).pattern ≠ "**"
    rw [show "!" ++ gemRoot rt ++ g.path ++ "/.git/**"
        = "!" ++ (gemRoot rt ++ (g.path ++ "/.git/**")) from by
      simp [String.append_assoc]]
    rw [parseIncludeRule_bang]
    exact ne_of_data_head_ne _ _ 'v' '*'
      (data_head_append _ _ _ (gemRoot_head rt)) hstar (by decide)
  | gemTest g =>
    show (parseIncludeRule ("!" ++ gemRoot rt ++ g.path ++ "/test/**")).pattern ≠ "**"
    rw [show "!" ++ gemRoot rt ++ g.path ++ "/test/**"
        = "!" ++ (gemRoot rt ++ (g.path ++ "/test/**")) from by
      simp [String.append_assoc]]
    rw [parseIncludeRule_bang]
    exact ne_of_data_head_ne _ _ 'v' '*'
      (data_head_append _ _ _ (gemRoot_head rt)) hstar (by decide)
  | gemSpecDir g =>
    show (parseIncludeRule ("!" ++ gemRoot rt ++ g.path ++ "/spec/**")).pattern ≠ "**"
    rw [show "!" ++ gemRoot rt ++ g.path ++ "/spec/**"
        = "!" ++ (gemRoot rt ++ (g.path ++ "/spec/**")) from by
      simp [String.append_assoc]]
    rw [parseIncludeRule_bang]
    exact ne_of_data_head_ne _ _ 'v' '*'
      (data_head_append _ _ _ (gemRoot_head rt)) hstar (by decide)
  | gemspecFile g =>
    show (parseIncludeRule (gemRoot rt ++ g.gemspec)).pattern ≠ "**"
    have hh : (gemRoot rt ++ g.gemspec).data.head? = some 'v' :=
      data_head_append _ _ _ (gemRoot_head rt)
    rw [parseIncludeRule_of_head _ _ hh (by decide)]
    exact ne_of_data_head_ne _ _ 'v' '*' hh hstar (by decide)

/-- No pushed rule other than the standalone bootstrap rule equals the
bootstrap rule string. -/
theorem renderRule_ne_bundler (rt : String) (t : ManifestRule)
    (h : t ≠ ManifestRule.bundlerStandalone) :
    renderRule rt t ≠ "vendor/bundle/bundler/**" := by
  have hv : ("vendor/bundle/bundler/**" : String).data.head? = some 'v' := rfl
  cases t with
  | bundlerStandalone => exact absurd rfl h
  | bundleConfig =>
    show (".bundle/config" : String) ≠ "vendor/bundle/bundler/**"
    decide
  | gemDir g =>
    show gemRoot rt ++ g.path ++ "/**" ≠ _
    rw [String.append_assoc]
    exact gemRoot_append_ne_bundler rt _
  | gemExt g =>
    show extensionDir rt ++ "/" ++ g.name ++ "/**" ≠ _
    simp only [extensionDir, String.append_assoc]
    exact gemRoot_append_ne_bundler rt _
  | gemGit g =>
    exact ne_of_data_head_ne _ _ '!' 'v' (data_head_append _ _ _
      (data_head_append _ _ _ (data_head_append _ _ _ rfl))) hv (by decide)
  | gemTest g =>
    exact ne_of_data_head_ne _ _ '!' 'v' (data_head_append _ _ _
      (data_head_append _ _ _ (data_head_append _ _ _ rfl))) hv (by decide)
  | gemSpecDir g =>
    exact ne_of_data_head_ne _ _ '!' 'v' (data_head_append _ _ _
      (data_head_append _ _ _ (data_head_append _ _ _ rfl))) hv (by decide)
  | gemspecFile g => exact gemRoot_append_ne_bundler rt _

/-- No pushed rule other than the `.bundle/config` rule equals the
`.bundle/config` string. -/
theorem renderRule_ne_bundleConfig (rt : String) (t : ManifestRule)
    (h : t ≠ ManifestRule.bundleConfig) :
    renderRule rt t ≠ ".bundle/config" := by
  have hdot : (".bundle/config" : String).data.head? = some '.' := rfl
  cases t with
  | bundlerStandalone =>
    show ("vendor/bundle/bundler/**" : String) ≠ ".bundle/config"
    decide
  | bundleConfig => exact absurd rfl h
  | gemDir g =>
    exact ne_of_data_head_ne _ _ 'v' '.' (data_head_append _ _ _
      (data_head_append _ _ _ (gemRoot_head rt))) hdot (by decide)
  | gemExt g =>
    exact ne_of_data_head_ne _ _ 'v' '.' (data_head_append _ _ _
      (data_head_append _ _ _ (data_head_append _ _ _
        (data_head_append _ _ _ (gemRoot_head rt))))) hdot (by decide)
  | gemGit g =>
    exact ne_of_data_head_ne _ _ '!' '.' (data_head_append _ _ _
      (data_head_append _ _ _ (data_head_append _ _ _ rfl))) hdot (by decide)
  | gemTest g =>
    exact ne_of_data_head_ne _ _ '!' '.' (data_head_append _ _ _
      (data_head_append _ _ _ (data_head_append _ _ _ rfl))) hdot (by decide)
  | gemSpecDir g =>
    exact ne_of_data_head_ne _ _ '!' '.' (data_head_append _ _ _
      (data_head_append _ _ _ (data_head_append _ _ _ rfl))) hdot (by decide)
  | gemspecFile g =>
    exact ne_of_data_head_ne _ _ 'v' '.'
      (data_head_append _ _ _ (gemRoot_head rt)) hdot (by decide)

/-! ### C10 — the environment variable completely overrides the config -/

/-- C10: whenever `CROSS_COMPILE_EXTENSIONS` is defined, its regex test
replaces the configured `alwaysCrossCompileExtensions` outright: any
non-affirmative value (including the empty string) yields `false` even if
the configuration said `true`, the single letter `y` yields `true`, and
the match is case-insensitive. -/
theorem env_override_replaces_config (cfg : PluginConfig) (v : String) :
    (applyEnvOverride cfg (some v)).alwaysCrossCompileExtensions
        = crossCompileAffirmative v
    ∧ (applyEnvOverride { cfg with alwaysCrossCompileExtensions := true }
        (some "")).alwaysCrossCompileExtensions = false
    ∧ (applyEnvOverride { cfg with alwaysCrossCompileExtensions := true }
        (some "no")).alwaysCrossCompileExtensions = false
    ∧ (applyEnvOverride { cfg with alwaysCrossCompileExtensions := false }
        (some "y")).alwaysCrossCompileExtensions = true
    ∧ (applyEnvOverride { cfg with alwaysCrossCompileExtensions := false }
        (some "TRUE")).alwaysCrossCompileExtensions = true := by
  refine ⟨rfl, ?_, ?_, ?_, ?_⟩ <;> simp [applyEnvOverride] <;> decide

/-! ### C4 — the orchestrator runs exactly when the effective toggle is true -/

/-- C4: with a successfully collected inventory, `nativeLinuxBundle` is
invoked exactly when the effective `alwaysCrossCompileExtensions` toggle
is true — regardless of what the inventory contains — and setting
`CROSS_COMPILE_EXTENSIONS=no` forces the toggle to `false` (so the
orchestrator is never invoked) even when the configured default is
`true`. -/
theorem orchestrator_invoked_iff_toggle (cfg : PluginConfig) (runtime : String)
    (s0 : PackageSurface) (gems : List Gem) (ok : Cmd → Bool) :
    (beforePackage cfg runtime s0 (some gems) ok).invokedNative
        = cfg.alwaysCrossCompileExtensions
    ∧ ∀ base : PluginConfig,
        (beforePackage
            (applyEnvOverride { base with alwaysCrossCompileExtensions := true }
              (some "no"))
            runtime s0 (some gems) ok).invokedNative = false := by
  constructor
  · by_cases ht : cfg.alwaysCrossCompileExtensions = true
    · cases hnr : (nativeLinuxBundle cfg ok).err <;>
        simp [beforePackage, ht, hnr, finishPackaging]
    · have ht' : cfg.alwaysCrossCompileExtensions = false := by
        revert ht; cases cfg.alwaysCrossCompileExtensions <;> simp
      simp [beforePackage, ht', finishPackaging]
  · intro base
    have hno : crossCompileAffirmative "no" = false := by decide
    simp [applyEnvOverride, hno, beforePackage, finishPackaging]

/-! ### C1 — what is committed when the dependency tool fails -/

/-- C1 (counterexample): with the default configuration and an initially
clean package surface, a failing dependency-tool invocation propagates the
dependency-resolution error, yet the surface has already received the
universal exclude rule `**` and the `excludeDevDependencies = false`
mutation — so it is not true that "the Host Package Surface receives zero
rules (and no other package-surface mutation)". -/
theorem dependency_failure_still_mutates_surface :
    (beforePackage cfgEx "ruby2.7" ⟨true, [], []⟩ none okAll).err
        = some RunError.dependencyResolution
    ∧ (beforePackage cfgEx "ruby2.7" ⟨true, [], []⟩ none okAll).surface.exclude
        = ["**"]
    ∧ (beforePackage cfgEx "ruby2.7" ⟨true, [], []⟩ none
        okAll).surface.excludeDevDependencies = false := by decide

/-- C1 (amended): when the dependency-tool invocation fails, the
dependency-resolution error propagates, `nativeLinuxBundle` is never
invoked, and no per-package rule has been committed — but the surface has
already received the universal exclude-all assignment, the
`excludeDevDependencies = false` mutation, and (in standalone mode) the
bootstrap include rule, all of which happen before the tool runs. -/
theorem dependency_failure_commits_only_preamble (cfg : PluginConfig)
    (runtime : String) (s0 : PackageSurface) (ok : Cmd → Bool) :
    (beforePackage cfg runtime s0 none ok).err
        = some RunError.dependencyResolution
    ∧ (beforePackage cfg runtime s0 none ok).surface.exclude = ["**"]
    ∧ (beforePackage cfg runtime s0 none ok).surface.excludeDevDependencies
        = false
    ∧ (beforePackage cfg runtime s0 none ok).surface.includes
        = s0.includes
            ++ (if cfg.standalone then ["vendor/bundle/bundler/**"] else [])
    ∧ (beforePackage cfg runtime s0 none ok).invokedNative = false := by
  by_cases h : cfg.standalone = true <;> simp [beforePackage, pushInclude, h]

/-! ### C2 — a failing teardown replaces the original error -/

/-- C2 (counterexample): when `bundle install` fails inside the container
and the `docker rm` in the `finally` block also fails, the error that
propagates out of `nativeLinuxBundle` is the teardown failure, not the
original install error — contradicting "the teardown failure is only
logged and never replaces or suppresses the original error". -/
theorem teardown_failure_masks_install_error :
    (nativeLinuxBundle cfgEx okInstallRmFail).bodyErr = some Cmd.bundleInstall
    ∧ (nativeLinuxBundle cfgEx okInstallRmFail).err = some Cmd.rmContainer
    ∧ (nativeLinuxBundle cfgEx okInstallRmFail).err
        ≠ (nativeLinuxBundle cfgEx okInstallRmFail).bodyErr := by decide

/-- C2 (amended): when the container-removal command in the `finally`
block fails, its error is what propagates out of `nativeLinuxBundle`,
replacing any earlier error from the build steps (nothing is logged about
it). -/
theorem teardown_failure_replaces_pending_error (cfg : PluginConfig)
    (ok : Cmd → Bool) (h : ok Cmd.rmContainer = false) :
    (nativeLinuxBundle cfg ok).err = some Cmd.rmContainer := by
  simp [nativeLinuxBundle, h]

theorem teardown_failure_replaces_pending_error_witness :
    okInstallRmFail Cmd.rmContainer = false
    ∧ (nativeLinuxBundle cfgEx okInstallRmFail).err = some Cmd.rmContainer :=
  ⟨by decide,
    teardown_failure_replaces_pending_error cfgEx okInstallRmFail (by decide)⟩

/-! ### C3 — teardown is issued on every exit path -/

/-- C3: once container creation succeeded, the `docker rm` teardown
command is part of the issued-command trace on every exit path, and it is
the final command issued; in particular, when the in-container install
step fails, the teardown command has been issued by the time the error
propagates to the caller. -/
theorem sandbox_teardown_on_every_exit (cfg : PluginConfig) (ok : Cmd → Bool)
    (h : ok Cmd.create = true) :
    Cmd.rmContainer ∈ (nativeLinuxBundle cfg ok).trace
    ∧ (nativeLinuxBundle cfg ok).trace.getLast? = some Cmd.rmContainer
    ∧ (ok Cmd.bundleInstall = false → (nativeLinuxBundle cfg ok).err ≠ none) := by
  refine ⟨?_, ?_, ?_⟩
  · simp [nativeLinuxBundle]
  · simp [nativeLinuxBundle, List.getLast?_concat]
  · intro hbi
    by_cases hrm : ok Cmd.rmContainer = true
    · simp only [nativeLinuxBundle, hrm, if_pos]
      intro hnone
      have hall := runSteps_all_ok_of_none ok (nativeSteps cfg) hnone
        Cmd.bundleInstall (bundleInstall_mem_nativeSteps cfg)
      rw [hall] at hbi
      exact Bool.noConfusion hbi
    · simp [nativeLinuxBundle, hrm]

theorem sandbox_teardown_on_every_exit_witness :
    okInstallFail Cmd.create = true
    ∧ (Cmd.rmContainer ∈ (nativeLinuxBundle cfgEx okInstallFail).trace
      ∧ (nativeLinuxBundle cfgEx okInstallFail).trace.getLast?
          = some Cmd.rmContainer
      ∧ (okInstallFail Cmd.bundleInstall = false →
          (nativeLinuxBundle cfgEx okInstallFail).err ≠ none)) :=
  ⟨by decide, sandbox_teardown_on_every_exit cfgEx okInstallFail (by decide)⟩

/-! ### List-shape lemmas about the emitted rules -/

theorem mem_concatMap {α β : Type} {f : α → List β} {b : β} :
    ∀ {l : List α}, b ∈ concatMap f l ↔ ∃ a, a ∈ l ∧ b ∈ f a := by
  intro l
  induction l with
  | nil => simp [concatMap]
  | cons x xs ih => simp [concatMap, List.mem_append, ih]

theorem sublist_concatMap_of_mem {α β : Type} (f : α → List β) (l : List α)
    (a : α) (h : a ∈ l) (s : List β) (hs : s.Sublist (f a)) :
    s.Sublist (concatMap f l) := by
  induction l with
  | nil => exact absurd h (List.not_mem_nil a)
  | cons x xs ih =>
    rcases List.mem_cons.mp h with rfl | h
    · exact hs.trans (List.sublist_append_left _ _)
    · exact (ih h).trans (List.sublist_append_right _ _)

/-- The include rules a run pushes onto `package.include`, as a function of
the branch taken: the standalone bootstrap push always happens first; then,
if the gem identification succeeded and `nativeLinuxBundle` (when invoked)
did not raise, the `.bundle/config` push and the per-gem rules follow. -/
def emittedIncludes (cfg : PluginConfig) (rt : String)
    (gems? : Option (List Gem)) (ok : Cmd → Bool) : List String :=
  (if cfg.standalone then ["vendor/bundle/bundler/**"] else [])
  ++ match gems? with
     | none => []
     | some gems =>
       if cfg.alwaysCrossCompileExtensions = true
           ∧ (nativeLinuxBundle cfg ok).err ≠ none then []
       else
         (if cfg.standalone then [] else [".bundle/config"])
           ++ concatMap (gemRules cfg rt) gems

/-- Every run leaves `excludeDevDependencies = false`, `exclude = ["**"]`,
and the initial include list extended by exactly the branch's emitted
rules. -/
theorem beforePackage_surface_eq (cfg : PluginConfig) (rt : String)
    (s0 : PackageSurface) (gems? : Option (List Gem)) (ok : Cmd → Bool) :
    (beforePackage cfg rt s0 gems? ok).surface
      = { excludeDevDependencies := false, exclude := ["**"],
          includes := s0.includes ++ emittedIncludes cfg rt gems? ok } := by
  cases gems? with
  | none =>
    by_cases hs : cfg.standalone = true <;>
      simp [beforePackage, emittedIncludes, pushInclude, hs]
  | some gems =>
    by_cases ht : cfg.alwaysCrossCompileExtensions = true
    · cases herr : (nativeLinuxBundle cfg ok).err with
      | some c =>
        by_cases hs : cfg.standalone = true <;>
          simp [beforePackage, emittedIncludes, pushInclude, finishPackaging,
            hs, ht, herr]
      | none =>
        by_cases hs : cfg.standalone = true <;>
          simp [beforePackage, emittedIncludes, pushInclude, finishPackaging,
            hs, ht, herr, List.append_assoc]
    · have ht' : cfg.alwaysCrossCompileExtensions = false := by
        revert ht; cases cfg.alwaysCrossCompileExtensions <;> simp
      by_cases hs : cfg.standalone = true <;>
        simp [beforePackage, emittedIncludes, pushInclude, finishPackaging,
          hs, ht', List.append_assoc]

/-- Every emitted include rule is the rendering of some rule tag. -/
theorem emitted_renders (cfg : PluginConfig) (rt : String)
    (gems? : Option (List Gem)) (ok : Cmd → Bool) (r : String)
    (h : r ∈ emittedIncludes cfg rt gems? ok) :
    ∃ t : ManifestRule, r = renderRule rt t := by
  unfold emittedIncludes at h
  rcases List.mem_append.mp h with h | h
  · by_cases hs : cfg.standalone = true
    · rw [if_pos hs] at h
      simp at h
      exact ⟨ManifestRule.bundlerStandalone, h⟩
    · rw [if_neg hs] at h
      exact absurd h (List.not_mem_nil r)
  · cases gems? with
    | none => exact absurd h (List.not_mem_nil r)
    | some gems =>
      replace h : r ∈ (if cfg.alwaysCrossCompileExtensions = true
            ∧ (nativeLinuxBundle cfg ok).err ≠ none then ([] : List String)
          else (if cfg.standalone = true then [] else [".bundle/config"])
            ++ concatMap (gemRules cfg rt) gems) := h
      by_cases hc : cfg.alwaysCrossCompileExtensions = true
          ∧ (nativeLinuxBundle cfg ok).err ≠ none
      · rw [if_pos hc] at h
        exact absurd h (List.not_mem_nil r)
      · rw [if_neg hc] at h
        rcases List.mem_append.mp h with h | h
        · by_cases hs : cfg.standalone = true
          · rw [if_pos hs] at h
            exact absurd h (List.not_mem_nil r)
          · rw [if_neg hs] at h
            simp at h
            exact ⟨ManifestRule.bundleConfig, h⟩
        · rcases mem_concatMap.mp h with ⟨g, _, hg⟩
          rcases List.mem_map.mp hg with ⟨t, _, rfl⟩
          exact ⟨t, rfl⟩

/-! ### C5 — the rule sequence starts with the single exclude-all rule -/

/-- C5: starting from a surface with an empty include list, every run —
whatever the inventory, configuration, runtime, or external-command
outcomes — produces a rule sequence whose first element is the universal
exclude rule `**`, and no later rule (all of which come from the include
list) has the pattern `**`. -/
theorem exclude_all_rule_first (cfg : PluginConfig) (rt : String)
    (ok : Cmd → Bool) (gems? : Option (List Gem)) (edd : Bool)
    (excl0 : List String) :
    ruleSequence (beforePackage cfg rt ⟨edd, excl0, []⟩ gems? ok).surface
      = ⟨"**", true⟩ ::
          ((beforePackage cfg rt ⟨edd, excl0, []⟩ gems? ok).surface.includes.map
            parseIncludeRule)
    ∧ ∀ gr ∈ (beforePackage cfg rt ⟨edd, excl0, []⟩ gems? ok).surface.includes.map
          parseIncludeRule, gr.pattern ≠ "**" := by
  constructor
  · rw [ruleSequence, beforePackage_surface_eq]
    rfl
  · intro gr hgr
    rcases List.mem_map.mp hgr with ⟨r, hr, rfl⟩
    rw [beforePackage_surface_eq] at hr
    simp only [List.nil_append] at hr
    obtain ⟨t, rfl⟩ := emitted_renders cfg rt gems? ok r hr
    exact renderRule_pattern_ne_starstar rt t

theorem exclude_all_rule_first_witness :
    ruleSequence (beforePackage cfgEx "ruby2.7" ⟨true, [], []⟩
        (some [sampleGem]) okAll).surface
      = ⟨"**", true⟩ ::
          ((beforePackage cfgEx "ruby2.7" ⟨true, [], []⟩ (some [sampleGem])
              okAll).surface.includes.map parseIncludeRule)
    ∧ ∀ gr ∈ (beforePackage cfgEx "ruby2.7" ⟨true, [], []⟩ (some [sampleGem])
          okAll).surface.includes.map parseIncludeRule, gr.pattern ≠ "**" :=
  exclude_all_rule_first cfgEx "ruby2.7" okAll (some [sampleGem]) true []

/-! ### C6 — each gem's include rule precedes its negated rules -/

theorem dir_git_sublist_gemRuleTags (cfg : PluginConfig) (g : Gem) :
    [ManifestRule.gemDir g, ManifestRule.gemGit g].Sublist (gemRuleTags cfg g) := by
  unfold gemRuleTags
  refine List.Sublist.cons₂ _ ?_
  exact ((List.nil_sublist _).cons₂ _).trans (List.sublist_append_right _ _)

theorem dir_test_spec_sublist_gemRuleTags (cfg : PluginConfig) (g : Gem)
    (h : cfg.excludeGemTests = true) :
    [ManifestRule.gemDir g, ManifestRule.gemTest g,
      ManifestRule.gemSpecDir g].Sublist (gemRuleTags cfg g) := by
  unfold gemRuleTags
  rw [if_pos h]
  refine List.Sublist.cons₂ _ ?_
  have h0 : [ManifestRule.gemTest g, ManifestRule.gemSpecDir g].Sublist
      ([ManifestRule.gemTest g, ManifestRule.gemSpecDir g]
        ++ (if cfg.standalone then [] else [ManifestRule.gemspecFile g])) :=
    List.sublist_append_left _ _
  exact (h0.cons _).trans (List.sublist_append_right _ _)

theorem sublist_manifestRuleTags_of_gem (cfg : PluginConfig)
    (gems : List Gem) (g : Gem) (hg : g ∈ gems) (s : List ManifestRule)
    (hs : s.Sublist (gemRuleTags cfg g)) :
    s.Sublist (manifestRuleTags cfg gems) := by
  unfold manifestRuleTags
  exact (sublist_concatMap_of_mem _ _ _ hg _ hs).trans
    (List.sublist_append_right _ _)

/-- C6: for every gem of the inventory, the emitted rule-string sequence
contains the gem's positive include rule strictly before its negated
`.git` rule, and — when `excludeGemTests` is enabled — strictly before its
negated `test` and `spec` rules, so last-match-wins evaluation produces
the intended exclusions. -/
theorem include_precedes_negations (cfg : PluginConfig) (rt : String)
    (gems : List Gem) (g : Gem) (hg : g ∈ gems) :
    [renderRule rt (ManifestRule.gemDir g),
      renderRule rt (ManifestRule.gemGit g)].Sublist
        (manifestIncludes cfg rt gems)
    ∧ (cfg.excludeGemTests = true →
        [renderRule rt (ManifestRule.gemDir g),
          renderRule rt (ManifestRule.gemTest g),
          renderRule rt (ManifestRule.gemSpecDir g)].Sublist
            (manifestIncludes cfg rt gems)) := by
  constructor
  · have htag := sublist_manifestRuleTags_of_gem cfg gems g hg _
      (dir_git_sublist_gemRuleTags cfg g)
    simpa [manifestIncludes] using htag.map (renderRule rt)
  · intro hflag
    have htag := sublist_manifestRuleTags_of_gem cfg gems g hg _
      (dir_test_spec_sublist_gemRuleTags cfg g hflag)
    simpa [manifestIncludes] using htag.map (renderRule rt)

theorem include_precedes_negations_witness :
    sampleGem ∈ [sampleGem]
    ∧ ([renderRule "ruby2.7" (ManifestRule.gemDir sampleGem),
          renderRule "ruby2.7" (ManifestRule.gemGit sampleGem)].Sublist
            (manifestIncludes cfgEx "ruby2.7" [sampleGem])
        ∧ (cfgEx.excludeGemTests = true →
            [renderRule "ruby2.7" (ManifestRule.gemDir sampleGem),
              renderRule "ruby2.7" (ManifestRule.gemTest sampleGem),
              renderRule "ruby2.7" (ManifestRule.gemSpecDir sampleGem)].Sublist
                (manifestIncludes cfgEx "ruby2.7" [sampleGem]))) :=
  ⟨by decide,
    include_precedes_negations cfgEx "ruby2.7" [sampleGem] sampleGem (by decide)⟩

/-! ### C7 — gemspec include rules appear exactly in non-standalone mode -/

/-- C7: in standalone mode no gemspec (manifest-file) include rule is
emitted for any gem; in non-standalone mode the gemspec include rule
`<gemRoot><gemspec>` is emitted for every gem of the inventory. -/
theorem gemspec_rule_iff_nonstandalone (cfg : PluginConfig) (rt : String)
    (gems : List Gem) :
    (cfg.standalone = true →
      ∀ g : Gem, ManifestRule.gemspecFile g ∉ manifestRuleTags cfg gems)
    ∧ (cfg.standalone = false →
      ∀ g ∈ gems, gemRoot rt ++ g.gemspec ∈ manifestIncludes cfg rt gems) := by
  constructor
  · intro hs g hmem
    unfold manifestRuleTags at hmem
    simp [hs] at hmem
    rcases mem_concatMap.mp hmem with ⟨g', _, hmem'⟩
    revert hmem'
    by_cases he : g'.extensions = true <;>
      by_cases ht : cfg.excludeGemTests = true <;>
        simp [gemRuleTags, he, ht, hs]
  · intro hs g hg
    have htag : ManifestRule.gemspecFile g ∈ manifestRuleTags cfg gems := by
      unfold manifestRuleTags
      refine List.mem_append.mpr (Or.inr ?_)
      refine mem_concatMap.mpr ⟨g, hg, ?_⟩
      by_cases he : g.extensions = true <;>
        by_cases ht : cfg.excludeGemTests = true <;>
          simp [gemRuleTags, he, ht, hs]
    have hr : renderRule rt (ManifestRule.gemspecFile g)
        ∈ manifestIncludes cfg rt gems := List.mem_map_of_mem _ htag
    exact hr

theorem gemspec_rule_iff_nonstandalone_witness :
    (({ cfgEx with standalone := true } : PluginConfig).standalone = true
      ∧ ManifestRule.gemspecFile sampleGem
          ∉ manifestRuleTags { cfgEx with standalone := true } [sampleGem])
    ∧ (cfgEx.standalone = false
      ∧ gemRoot "ruby2.7" ++ sampleGem.gemspec
          ∈ manifestIncludes cfgEx "ruby2.7" [sampleGem]) :=
  ⟨⟨rfl, (gemspec_rule_iff_nonstandalone { cfgEx with standalone := true }
      "ruby2.7" [sampleGem]).1 rfl sampleGem⟩,
    ⟨rfl, (gemspec_rule_iff_nonstandalone cfgEx "ruby2.7" [sampleGem]).2 rfl
      sampleGem (by decide)⟩⟩

/-! ### C8 — bootstrap rule iff standalone, `.bundle/config` rule iff not -/

theorem bundlerStandalone_not_mem_of_nonstandalone (cfg : PluginConfig)
    (gems : List Gem) (hs : cfg.standalone = false) :
    ManifestRule.bundlerStandalone ∉ manifestRuleTags cfg gems := by
  intro htag
  unfold manifestRuleTags at htag
  simp [hs] at htag
  rcases mem_concatMap.mp htag with ⟨g, _, hg⟩
  revert hg
  by_cases he : g.extensions = true <;>
    by_cases ht : cfg.excludeGemTests = true <;>
      simp [gemRuleTags, he, ht, hs]

theorem bundleConfig_not_mem_of_standalone (cfg : PluginConfig)
    (gems : List Gem) (hs : cfg.standalone = true) :
    ManifestRule.bundleConfig ∉ manifestRuleTags cfg gems := by
  intro htag
  unfold manifestRuleTags at htag
  simp [hs] at htag
  rcases mem_concatMap.mp htag with ⟨g, _, hg⟩
  revert hg
  by_cases he : g.extensions = true <;>
    by_cases ht : cfg.excludeGemTests = true <;>
      simp [gemRuleTags, he, ht, hs]

/-- C8: the emitted rule strings contain the standalone bootstrap include
rule `vendor/bundle/bundler/**` exactly when standalone mode is on, and
the runtime-bundle configuration include rule `.bundle/config` exactly
when standalone mode is off. -/
theorem bootstrap_and_config_rules (cfg : PluginConfig) (rt : String)
    (gems : List Gem) :
    ("vendor/bundle/bundler/**" ∈ manifestIncludes cfg rt gems
      ↔ cfg.standalone = true)
    ∧ (".bundle/config" ∈ manifestIncludes cfg rt gems
      ↔ cfg.standalone = false) := by
  constructor
  · constructor
    · intro hmem
      cases hs : cfg.standalone with
      | true => rfl
      | false =>
        exfalso
        rcases List.mem_map.mp hmem with ⟨t, htag, hrender⟩
        have hne : t ≠ ManifestRule.bundlerStandalone := by
          intro he
          subst he
          exact bundlerStandalone_not_mem_of_nonstandalone cfg gems hs htag
        exact renderRule_ne_bundler rt t hne hrender
    · intro hs
      refine List.mem_map.mpr ⟨ManifestRule.bundlerStandalone, ?_, rfl⟩
      unfold manifestRuleTags
      simp [hs]
  · constructor
    · intro hmem
      cases hs : cfg.standalone with
      | false => rfl
      | true =>
        exfalso
        rcases List.mem_map.mp hmem with ⟨t, htag, hrender⟩
        have hne : t ≠ ManifestRule.bundleConfig := by
          intro he
          subst he
          exact bundleConfig_not_mem_of_standalone cfg gems hs htag
        exact renderRule_ne_bundleConfig rt t hne hrender
    · intro hs
      refine List.mem_map.mpr ⟨ManifestRule.bundleConfig, ?_, rfl⟩
      unfold manifestRuleTags
      simp [hs]

/-! ### C9 — the container descriptor is never actually cached -/

/-- C9: with no user-seeded `tempContainer` in the persistent custom
config, a `tempContainer()` call constructs the descriptor but leaves the
persistent state unchanged (the caching assignment lands on the transient
config object built by the getter), so the next call constructs it again:
the check-then-store caching pattern of src/index.js lines 169-191 never
takes effect. -/
theorem tempContainer_never_cached :
    (tempContainerCall ⟨none⟩ cfgEx "ruby2.7").constructed = true
    ∧ (tempContainerCall ⟨none⟩ cfgEx "ruby2.7").custom = ⟨none⟩
    ∧ (tempContainerCall (tempContainerCall ⟨none⟩ cfgEx "ruby2.7").custom
        cfgEx "ruby2.7").constructed = true
    ∧ (tempContainerCall ⟨none⟩ cfgEx "ruby2.7").container
        = buildTempContainer cfgEx "ruby2.7" := by decide

end ServerlessRubyPackage
